import Mathlib

/-!
Verification of the Anthropic message-adapter pipeline
(`src/pipelines/anthropic.py`) against its specification.

The Python source is shallowly embedded: Python strings are Lean `String`s,
Python dicts holding known keys become structures with `Option` fields
(`none` = key absent), Python exceptions become the `PyErr` error type of an
`Except PyErr` computation, and the HTTP transport is an oracle passed in as
a function argument.  Python's float arithmetic on image sizes
(`len * 3 / 4`) is exact for all representable inputs (the numerator is far
below 2^53), so it is embedded by tracking four times the byte total as a
natural number and comparing against four times the byte limit.
-/

namespace Anthropic

/-- Python exception values raised by the embedded code.  Only the
`ValueError` messages are significant to the adapter's behaviour; the
rendering of the other kinds is approximate. -/
inductive PyErr where
  | valueError (msg : String)
  | keyError (key : String)
  | typeError (msg : String)
  | indexError

/-- `str(e)` for an exception: the message text.  (Python renders
`KeyError(k)` with quotes around the key; the quoting is not modelled, and
no adapter behaviour depends on it.) -/
def pyErrStr : PyErr → String
  | .valueError m => m
  | .keyError k => k
  | .typeError m => m
  | .indexError => "list index out of range"

/-- `s.startswith(pre)`. -/
def pyStartsWith (s pre : String) : Bool :=
  pre.data.isPrefixOf s.data

/-- Helper for `s.split(sep, 1)`: split a character list at the first
occurrence of `c`, or `none` when `c` does not occur. -/
def splitFirstAux (c : Char) : List Char → Option (List Char × List Char)
  | [] => none
  | a :: as =>
    if a = c then some ([], as)
    else
      match splitFirstAux c as with
      | none => none
      | some (p, q) => some (a :: p, q)

/-- `s.split(c, 1)` returning the two pieces, or `none` when `c` does not
occur in `s` (in which case the Python tuple unpacking raises). -/
def pySplit1 (s : String) (c : Char) : Option (String × String) :=
  match splitFirstAux c s.data with
  | none => none
  | some (p, q) => some (String.mk p, String.mk q)

/-- Helper for `s.split(c)`: full split of a character list.  Like Python,
the result is never empty (`"".split(c) == [""]`). -/
def splitAllAux (c : Char) : List Char → List (List Char)
  | [] => [[]]
  | a :: as =>
    let r := splitAllAux c as
    if a = c then [] :: r
    else
      match r with
      | [] => [[a]]
      | h :: tl => (a :: h) :: tl

/-- `s.split(c)` (unbounded split). -/
def pySplitAll (s : String) (c : Char) : List String :=
  (splitAllAux c s.data).map String.mk

/-- JSON values, as produced by `json.loads`.  Numbers are modelled as
integers; no claim involves fractional JSON numbers. -/
inductive Json where
  | null
  | bool (b : Bool)
  | num (n : Int)
  | str (s : String)
  | arr (elems : List Json)
  | obj (fields : List (String × Json))

/-- Python `==` between a JSON value and a string literal: true exactly for
an equal string. -/
def Json.eqStr : Json → String → Bool
  | .str s, k => s == k
  | _, _ => false

/-- Python subscription `j[k]` with a string key: a dict lookup
(`KeyError` when the key is absent), `TypeError` on any non-dict. -/
def pyGet (j : Json) (k : String) : Except PyErr Json :=
  match j with
  | .obj fs =>
    match fs.lookup k with
    | some v => .ok v
    | none => .error (.keyError k)
  | _ => .error (.typeError "value is not subscriptable by a string key")

/-- Python subscription `j[i]` with a non-negative integer index. -/
def pyIndex (j : Json) (i : Nat) : Except PyErr Json :=
  match j with
  | .arr es =>
    match es.get? i with
    | some v => .ok v
    | none => .error .indexError
  | .obj _ => .error (.keyError (toString i))
  | .str s =>
    match s.data.get? i with
    | some ch => .ok (.str (String.mk [ch]))
    | none => .error .indexError
  | _ => .error (.typeError "value is not subscriptable by an index")

/-- Substring test over character lists, for Python's `k in s` on strings. -/
def isSubstr (k : List Char) : List Char → Bool
  | [] => k.isEmpty
  | a :: as => k.isPrefixOf (a :: as) || isSubstr k as

/-- Python `k in j` for a string `k`. -/
def pyIn (k : String) (j : Json) : Except PyErr Bool :=
  match j with
  | .obj fs => .ok (fs.any (fun f => f.1 == k))
  | .arr es => .ok (es.any (fun e => e.eqStr k))
  | .str s => .ok (isSubstr k.data s.data)
  | _ => .error (.typeError "argument is not iterable")

/-- Python truthiness of a JSON value. -/
def pyTruthy : Json → Bool
  | .null => false
  | .bool b => b
  | .num n => n != 0
  | .str s => s != ""
  | .arr es => !es.isEmpty
  | .obj fs => !fs.isEmpty

/-- One item of a list-valued message content.  The source reads
`item["type"]`, `item["text"]` and `item["image_url"]`; the `image_url`
value (a dict `{url: ...}`) is modelled by its url string. -/
structure Item where
  type : String
  text : Option String := none
  image_url : Option String := none

/-- The value under a message's `content` key: a plain string or a list of
items (the only shapes the adapter distinguishes: `isinstance(..., list)`
versus everything else, and all claims use string scalars). -/
inductive ContentVal where
  | str (s : String)
  | items (l : List Item)

/-- One chat turn.  `role` is always present (the source subscripts it
unconditionally); `content` may be absent. -/
structure Message where
  role : String
  content : Option ContentVal := none

/-- Simplified rendering of one item, used only inside `pyStrContent` for
list-valued system content; no claim depends on its exact text. -/
def reprItem (it : Item) : String :=
  "item:" ++ it.type

/-- `str(content)`: identity on strings; an approximate rendering of the
Python list repr otherwise. -/
def pyStrContent : ContentVal → String
  | .str s => s
  | .items l => "[" ++ String.intercalate ", " (l.map reprItem) ++ "]"

/-- Python truthiness of a content value (`if system_message:`). -/
def pyTruthyContent : ContentVal → Bool
  | .str s => s != ""
  | .items l => !l.isEmpty

/-- `pop_system_message` (anthropic.py lines 22-29): pop the first turn
when its role is `"system"`, returning its `content` and the remaining
turns; otherwise return no content and the list unchanged.  Reading the
`content` key of a system turn that lacks it raises `KeyError`. -/
def pop_system_message (messages : List Message) :
    Except PyErr (Option ContentVal × List Message) :=
  match messages with
  | [] => .ok (none, [])
  | m :: rest =>
    if m.role = "system" then
      match m.content with
      | some c => .ok (some c, rest)
      | none => .error (.keyError "content")
    else .ok (none, m :: rest)

/-- The source of an outbound image block. -/
inductive ImgSource where
  | base64 (media_type : String) (data : String)
  | url (u : String)

/-- One outbound content block. -/
inductive Block where
  | text (s : String)
  | image (src : ImgSource)

/-- Body of `process_image`'s `try` (anthropic.py lines 93-107): a url
starting with `data:image` is split at its first comma into the mime part
and base64 payload, and the media type is the text between the first colon
and the following semicolon; any other url becomes a url-source block. -/
def processImageTry (u : String) : Except PyErr Block :=
  if pyStartsWith u "data:image" then
    match pySplit1 u ',' with
    | none => .error (.valueError "not enough values to unpack")
    | some (mime_type, base64_data) =>
      match pySplitAll mime_type ':' with
      | _ :: second :: _ =>
        .ok (.image (.base64 ((pySplitAll second ';').headD second) base64_data))
      | _ => .error .indexError
  else .ok (.image (.url u))

/-- `process_image` (anthropic.py lines 90-110): any failure inside the
`try` is re-raised as `ValueError("Invalid image data: ...")`. -/
def process_image (u : String) : Except PyErr Block :=
  match processImageTry u with
  | .ok b => .ok b
  | .error e => .error (.valueError ("Invalid image data: " ++ pyErrStr e))

/-- The adapter's configuration (anthropic.py lines 32-39), with the same
defaults.  The float-typed defaults are modelled as exact rationals: the
adapter only stores and forwards them. -/
structure Valves where
  ANTHROPIC_API_KEY : String := ""
  MAX_IMAGES : Int := 5
  MAX_IMAGE_SIZE_MB : Int := 100
  DEFAULT_MAX_TOKENS : Int := 4096
  DEFAULT_TEMPERATURE : Rat := 0.8
  DEFAULT_TOP_K : Int := 40
  DEFAULT_TOP_P : Rat := 0.9

/-- The `ValueError` message for too many images (anthropic.py line 146). -/
def maxImagesMsg (m : Int) : String :=
  "Maximum of " ++ toString m ++ " images per API call exceeded"

/-- The `ValueError` message for the size ceiling (anthropic.py line 159). -/
def sizeLimitMsg (mb : Int) : String :=
  "Total size of images exceeds " ++ toString mb ++ "MB limit"

/-- Four times the byte limit `MAX_IMAGE_SIZE_MB * 1024 * 1024`
(anthropic.py line 157), matching the quarter-byte scaling of the running
total. -/
def limit4 (v : Valves) : Int :=
  4 * v.MAX_IMAGE_SIZE_MB * 1024 * 1024

/-- The per-call image-processing loop over the items of one list-valued
content (anthropic.py lines 137-162).  The state is the running
`image_count` and four times the running `total_image_size` in bytes
(`total4`): Python accumulates floats `len * 3 / 4`, which are exact
quarters, so `total > MAX_IMAGE_SIZE_MB * 1024 * 1024` is embedded as
`total4 > 4 * MAX_IMAGE_SIZE_MB * 1024 * 1024` over integers.
The count check precedes `process_image`; the size check follows it and
only base64 sources contribute size; items with any other `type` tag are
skipped without effect. -/
def processItems (v : Valves) : List Item → Nat → Nat → Except PyErr (List Block × Nat × Nat)
  | [], c, total4 => .ok ([], c, total4)
  | it :: rest, c, total4 =>
    if it.type = "text" then
      match it.text with
      | none => .error (.keyError "text")
      | some s => do
        let (bs, c2, t2) ← processItems v rest c total4
        .ok (Block.text s :: bs, c2, t2)
    else if it.type = "image_url" then
      if (c : Int) ≥ v.MAX_IMAGES then
        .error (.valueError (maxImagesMsg v.MAX_IMAGES))
      else
        match it.image_url with
        | none => .error (.keyError "image_url")
        | some u => do
          let blk ← process_image u
          match blk with
          | .image (.base64 _ d) =>
            let t1 := total4 + 3 * d.length
            if (t1 : Int) > limit4 v then
              .error (.valueError (sizeLimitMsg v.MAX_IMAGE_SIZE_MB))
            else do
              let (bs, c2, t2) ← processItems v rest (c + 1) t1
              .ok (blk :: bs, c2, t2)
          | _ => do
            let (bs, c2, t2) ← processItems v rest (c + 1) total4
            .ok (blk :: bs, c2, t2)
    else processItems v rest c total4

/-- One normalized outbound message. -/
structure PMessage where
  role : String
  content : List Block

/-- Processing of one turn (anthropic.py lines 133-172): a list-valued
content goes through the item loop; any other content yields a single text
block, with `message.get("content", "")` giving `""` when the key is
absent. -/
def processMessage (v : Valves) (m : Message) (c total4 : Nat) :
    Except PyErr (PMessage × Nat × Nat) :=
  match m.content with
  | some (.items l) => do
    let (bs, c2, t2) ← processItems v l c total4
    .ok (⟨m.role, bs⟩, c2, t2)
  | some (.str s) => .ok (⟨m.role, [Block.text s]⟩, c, total4)
  | none => .ok (⟨m.role, [Block.text ""]⟩, c, total4)

/-- The whole message loop, threading the image count and size state
across turns. -/
def processMessages (v : Valves) : List Message → Nat → Nat → Except PyErr (List PMessage × Nat × Nat)
  | [], c, total4 => .ok ([], c, total4)
  | m :: rest, c, total4 => do
    let (pm, c2, t2) ← processMessage v m c total4
    let (pms, c3, t3) ← processMessages v rest c2 t2
    .ok (pm :: pms, c3, t3)

/-- The caller's options bag (the `body` dict).  Each field is `none` when
the key is absent.  Values are modelled well-typed; the source reads them
without type checks. -/
structure Body where
  max_tokens : Option Int := none
  temperature : Option Rat := none
  top_k : Option Int := none
  top_p : Option Rat := none
  stop : Option (List String) := none
  stream : Option Bool := none
  user : Option String := none
  chat_id : Option String := none
  title : Option String := none

/-- `body.pop(key, None)` for `user`, `chat_id`, `title`
(anthropic.py lines 122-123). -/
def cleanBody (b : Body) : Body :=
  { b with user := none, chat_id := none, title := none }

/-- The outbound request payload (anthropic.py lines 175-188).
`system = none` models the key being absent from the dict. -/
structure Payload where
  model : String
  messages : List PMessage
  max_tokens : Int
  temperature : Rat
  top_k : Int
  top_p : Rat
  stop_sequences : List String
  stream : Bool
  system : Option String

/-- Payload assembly (anthropic.py lines 175-184): each generation
parameter is `body.get(key, default)`; `stop` defaults to the empty list
and `stream` to false; no `system` key yet. -/
def buildPayload (v : Valves) (model_id : String) (pmsgs : List PMessage) (body : Body) : Payload :=
  { model := model_id
    messages := pmsgs
    max_tokens := body.max_tokens.getD v.DEFAULT_MAX_TOKENS
    temperature := body.temperature.getD v.DEFAULT_TEMPERATURE
    top_k := body.top_k.getD v.DEFAULT_TOP_K
    top_p := body.top_p.getD v.DEFAULT_TOP_P
    stop_sequences := body.stop.getD []
    stream := body.stream.getD false
    system := none }

/-- `if system_message: payload["system"] = str(system_message)`
(anthropic.py lines 186-188): the key is added only when the extracted
content is truthy. -/
def attachSystem (p : Payload) (sys : Option ContentVal) : Payload :=
  match sys with
  | some c => if pyTruthyContent c then { p with system := some (pyStrContent c) } else p
  | none => p

/-- A transport-level failure of the HTTP client (`requests` raising). -/
inductive TransportErr where
  | fail (msg : String)

/-- `str(e)` of a transport failure. -/
def transportMsg : TransportErr → String
  | .fail m => m

/-- A non-streaming HTTP response: status, raw text, and the result of
`response.json()` (`none` when the body is not valid JSON, in which case
`.json()` raises). -/
structure JsonResp where
  status : Int
  text : String
  body : Option Json

/-- One server-sent event, modelled by the result of `json.loads` on its
data field (`none` = `JSONDecodeError`). -/
structure SSEvent where
  data : Option Json

/-- A streaming HTTP response: status, raw text, the events delivered, and
an optional transport failure raised by the iterator after the listed
events. -/
structure StreamResp where
  status : Int
  text : String
  events : List SSEvent
  tail : Option TransportErr

/-- The HTTP transport oracle: what `requests.post` returns (or raises)
for a given outbound payload, for each of the two call shapes. -/
structure Upstream where
  nonstream : Payload → Except TransportErr JsonResp
  stream : Payload → Except TransportErr StreamResp

/-- One value produced by the streaming generator: a yielded decoded datum
or the final error-description chunk yielded by the outer handler. -/
inductive Chunk where
  | out (j : Json)
  | err (s : String)

/-- Whether a chunk is the error-description kind. -/
def Chunk.isErr : Chunk → Bool
  | .out _ => false
  | .err _ => true

/-- The error text of `raise Exception(f"API Error: {status} - {text}")`
(anthropic.py lines 210 and 240). -/
def apiErrorMsg (status : Int) (text : String) : String :=
  "API Error: " ++ toString status ++ " - " ++ text

/-- The final error chunk text (anthropic.py line 232). -/
def streamErrMsg (s : String) : String :=
  "Error during streaming: " ++ s

/-- The message of a `requests` JSON-decode failure; its exact text does
not matter to the adapter. -/
def jsonParseFailMsg : String :=
  "Expecting value: line 1 column 1 (char 0)"

/-- Outcome of dispatching one parsed event (anthropic.py lines 217-222):
yield a value, fall through with no branch taken, or `break`. -/
inductive StepRes where
  | emit (j : Json)
  | skip
  | stop

/-- Dispatch of one parsed event datum by its `type` tag.  Subscription
failures surface as the `Except` error: `KeyError` is caught by the
per-event handler at the call site, anything else propagates to the outer
handler. -/
def processEvent (j : Json) : Except PyErr StepRes := do
  let t ← pyGet j "type"
  if t.eqStr "content_block_start" then do
    let cb ← pyGet j "content_block"
    let x ← pyGet cb "text"
    pure (.emit x)
  else if t.eqStr "content_block_delta" then do
    let d ← pyGet j "delta"
    let x ← pyGet d "text"
    pure (.emit x)
  else if t.eqStr "message_stop" then
    pure .stop
  else
    pure .skip

/-- The event-consumption loop (anthropic.py lines 213-228) together with
the outer handler (lines 230-232): JSON-decode failures and `KeyError`s
are skipped, `message_stop` ends the sequence, any other exception — or a
transport failure raised by the iterator after the listed events — yields
one final error chunk and ends the sequence. -/
def decodeEvents : List SSEvent → Option TransportErr → List Chunk
  | [], none => []
  | [], some t => [.err (streamErrMsg (transportMsg t))]
  | e :: rest, tail =>
    match e.data with
    | none => decodeEvents rest tail
    | some j =>
      match processEvent j with
      | .ok (.emit x) => .out x :: decodeEvents rest tail
      | .ok .skip => decodeEvents rest tail
      | .ok .stop => []
      | .error (.keyError _) => decodeEvents rest tail
      | .error e2 => [.err (streamErrMsg (pyErrStr e2))]

/-- `stream_response` (anthropic.py lines 199-232): a transport failure or
non-200 status yields a single error chunk; otherwise the event loop
runs. -/
def stream_response (up : Upstream) (p : Payload) : List Chunk :=
  match up.stream p with
  | .error t => [.err (streamErrMsg (transportMsg t))]
  | .ok r =>
    if r.status ≠ 200 then [.err (streamErrMsg (apiErrorMsg r.status r.text))]
    else decodeEvents r.events r.tail

/-- Result of the non-streaming call: the extracted value, or the
error-description string returned by the handler.  (In Python both are
plain strings; the constructor records which code path produced it.) -/
inductive CompletionResult where
  | val (j : Json)
  | errS (s : String)

/-- `result["content"][0]["text"] if "content" in result and
result["content"] else ""` (anthropic.py line 243). -/
def extractText (j : Json) : Except PyErr Json := do
  let b ← pyIn "content" j
  if b then do
    let c ← pyGet j "content"
    if pyTruthy c then do
      let e0 ← pyIndex c 0
      pyGet e0 "text"
    else pure (.str "")
  else pure (.str "")

/-- `get_completion` (anthropic.py lines 234-247): transport failure,
non-200 status, JSON-parse failure or extraction failure all return an
error-description string; otherwise the extracted value. -/
def get_completion (up : Upstream) (p : Payload) : CompletionResult :=
  match up.nonstream p with
  | .error t => .errS ("Error getting completion: " ++ transportMsg t)
  | .ok r =>
    if r.status ≠ 200 then
      .errS ("Error getting completion: " ++ apiErrorMsg r.status r.text)
    else
      match r.body with
      | none => .errS ("Error getting completion: " ++ jsonParseFailMsg)
      | some j =>
        match extractText j with
        | .ok x => .val x
        | .error e => .errS ("Error getting completion: " ++ pyErrStr e)

/-- The front half of `pipe` (anthropic.py lines 121-188): clean the body,
pop the system message, process all turns, assemble the payload and attach
the system field. -/
def assembledPayload (v : Valves) (model_id : String) (messages : List Message) (body : Body) :
    Except PyErr Payload := do
  let body := cleanBody body
  let sm ← pop_system_message messages
  let pm ← processMessages v sm.2 0 0
  pure (attachSystem (buildPayload v model_id pm.1 body) sm.1)

/-- The value returned by `pipe` to the host: a completion value, an
error-description string, or the chunk sequence of a streaming call. -/
inductive PipeResult where
  | ok (j : Json)
  | errText (s : String)
  | stream (chunks : List Chunk)

/-- Body of `pipe`'s `try` (anthropic.py lines 120-193). -/
def pipeTry (v : Valves) (user_message model_id : String) (messages : List Message)
    (body : Body) (up : Upstream) : Except PyErr PipeResult := do
  let p ← assembledPayload v model_id messages body
  if p.stream then
    pure (.stream (stream_response up p))
  else
    match get_completion up p with
    | .val j => pure (.ok j)
    | .errS s => pure (.errText s)

/-- `pipe` (anthropic.py lines 112-197): any exception raised inside the
`try` is converted to the returned string `f"Error: {e}"`. -/
def pipe (v : Valves) (user_message model_id : String) (messages : List Message)
    (body : Body) (up : Upstream) : PipeResult :=
  match pipeTry v user_message model_id messages body up with
  | .ok r => r
  | .error e => .errText ("Error: " ++ pyErrStr e)

/-- Number of items with the `image_url` tag in one content list. -/
def imageCount (its : List Item) : Nat :=
  (its.filter (fun it => it.type == "image_url")).length

/-- Four times the decoded size, in bytes, that one item contributes to the
running total: `3 * len(base64_data)` for an item converted to a base64
source, `0` otherwise. -/
def sizeQ (it : Item) : Nat :=
  if it.type == "image_url" then
    match it.image_url with
    | some u =>
      match process_image u with
      | .ok (.image (.base64 _ d)) => 3 * d.length
      | _ => 0
    | none => 0
  else 0

/-- The length of the base64 payload of an item converted to a base64
source, when there is one. -/
def itemB64Len (it : Item) : Option Nat :=
  if it.type == "image_url" then
    match it.image_url with
    | some u =>
      match process_image u with
      | .ok (.image (.base64 _ d)) => some d.length
      | _ => none
    | none => none
  else none

/-- The block one item converts to: a text block, a processed image, or
nothing for an unrecognized tag. -/
def itemBlock (it : Item) : Option Block :=
  if it.type == "text" then it.text.map Block.text
  else if it.type == "image_url" then
    match it.image_url with
    | some u => (process_image u).toOption
    | none => none
  else none

/-- Whether an `Except` result is a success. -/
def isOkB : Except PyErr Block → Bool
  | .ok _ => true
  | .error _ => false

/-- A well-formed item: a text item carries its text, an image item
carries a url that `process_image` accepts.  (Items with other tags are
always well-formed: the loop ignores them.) -/
def wfItem (it : Item) : Bool :=
  (it.type != "text" || it.text.isSome) &&
  (it.type != "image_url" ||
    (match it.image_url with
     | some u => isOkB (process_image u)
     | none => false))

/-- The items of a turn's content: empty unless the content is a list. -/
def msgItems (m : Message) : List Item :=
  match m.content with
  | some (.items l) => l
  | _ => []

/-- All items of a turn are well-formed. -/
def wfMsg (m : Message) : Bool :=
  (msgItems m).all wfItem

/-- Total number of `image_url` items across a list of turns. -/
def imageCountM (msgs : List Message) : Nat :=
  (msgs.map (fun m => imageCount (msgItems m))).sum

/-- Four times the total decoded base64 size across a list of turns. -/
def sizeQM (msgs : List Message) : Nat :=
  (msgs.map (fun m => ((msgItems m).map sizeQ).sum)).sum

/-- The block list one turn normalizes to when no limit is hit. -/
def expectedBlocks (m : Message) : List Block :=
  match m.content with
  | some (.items l) => l.filterMap itemBlock
  | some (.str s) => [Block.text s]
  | none => [Block.text ""]

/-- The normalized message one turn maps to when no limit is hit. -/
def expectedPMsg (m : Message) : PMessage :=
  ⟨m.role, expectedBlocks m⟩

/-- Whether a block is an image block. -/
def isImageBlock : Block → Bool
  | .image _ => true
  | .text _ => false

/-- Number of image blocks in the assembled payload. -/
def payloadImageCount (p : Payload) : Nat :=
  (p.messages.map (fun m => (m.content.filter isImageBlock).length)).sum

/-- Error chunks may appear only as the final element of a chunk
sequence. -/
def errOnlyFinal : List Chunk → Bool
  | [] => true
  | [_] => true
  | c :: rest => !c.isErr && errOnlyFinal rest

/-- A malformed stream event in the sense of the spec: its data is not
valid JSON, or its `type` tag is none of the recognized three, or a field
the dispatch needs is missing from its object (`KeyError`). -/
def skippable (e : SSEvent) : Bool :=
  match e.data with
  | none => true
  | some j =>
    match processEvent j with
    | .ok .skip => true
    | .error (.keyError _) => true
    | _ => false

/-- Modelled from the spec: the per-image decoded-size formula
`ceil(len(base64_data) * 3 / 4)` that the spec claims the adapter
accumulates.  Kept to compare against the source's exact (unrounded)
accumulation. -/
def ceilSize (len : Nat) : Nat :=
  (3 * len + 3) / 4

/-- A data-uri image url with a png media type around the given base64
payload. -/
def dataUriPng (d : String) : String :=
  "data:image/png;base64," ++ d

/-- An `image_url` item wrapping the given base64 payload. -/
def imgItem (d : String) : Item :=
  ⟨"image_url", none, some (dataUriPng d)⟩

/-- The default configuration. -/
def vDefault : Valves := {}

/-- An empty options bag. -/
def b0 : Body := {}

/-- A transport oracle that always fails. -/
def upFail : Upstream :=
  ⟨fun _ => .error (.fail "boom"), fun _ => .error (.fail "boom")⟩

/-- A `content_block_start` event carrying the given text. -/
def evStart (t : String) : SSEvent :=
  ⟨some (.obj [("type", .str "content_block_start"), ("content_block", .obj [("text", .str t)])])⟩

/-- A `content_block_delta` event carrying the given text. -/
def evDelta (t : String) : SSEvent :=
  ⟨some (.obj [("type", .str "content_block_delta"), ("delta", .obj [("text", .str t)])])⟩

/-- A `message_stop` event. -/
def evStop : SSEvent :=
  ⟨some (.obj [("type", .str "message_stop")])⟩

/-- An event with an unrecognized type tag. -/
def evPing : SSEvent :=
  ⟨some (.obj [("type", .str "ping")])⟩

/-- Configuration for the count/size interplay counterexample: at most 2
images, a 0MB size ceiling. -/
def v4cex : Valves := { MAX_IMAGES := 2, MAX_IMAGE_SIZE_MB := 0 }

/-- Three small images: more than `v4cex` allows, each with positive
decoded size. -/
def msgs4cex : List Message :=
  [⟨"user", some (.items [imgItem "aaaa", imgItem "aaaa", imgItem "aaaa"])⟩]

/-- Configuration for the rounding counterexample: a 1MB size ceiling. -/
def v2cex : Valves := { MAX_IMAGE_SIZE_MB := 1 }

/-- A base64 payload of 1398095 characters. -/
def bigData : String := String.mk (List.replicate 1398095 'a')

/-- Three images whose exact decoded sizes total one quarter byte under
1MB while the per-image ceilings total two bytes over it. -/
def msgs2cex : List Message :=
  [⟨"user", some (.items [imgItem "aaa", imgItem "aaa", imgItem bigData])⟩]

/-- A system turn with empty content followed by a user turn. -/
def msgs7cex : List Message :=
  [⟨"system", some (.str "")⟩, ⟨"user", some (.str "Hi")⟩]

/-- A plain user turn. -/
def mUserHi : Message := ⟨"user", some (.str "Hi")⟩

/-- A truthy system turn followed by a user turn. -/
def msgs7wit : List Message :=
  [⟨"system", some (.str "Be terse")⟩, mUserHi]

/-- The payload assembled from `msgs7wit` under the defaults. -/
def payload7wit : Payload :=
  ⟨"m", [⟨"user", [Block.text "Hi"]⟩], 4096, 0.8, 40, 0.9, [], false, some "Be terse"⟩

/-- The payload assembled from no turns under the defaults. -/
def payload0 : Payload :=
  ⟨"m", [], 4096, 0.8, 40, 0.9, [], false, none⟩

/-- A configuration allowing no images at all. -/
def vMax0 : Valves := { MAX_IMAGES := 0 }

/-- One turn holding one small image. -/
def msgsOneImg : List Message :=
  [⟨"user", some (.items [imgItem "aaa"])⟩]

/- ------------------------------------------------------------------ -/
/- Helper lemmas.                                                      -/
/- ------------------------------------------------------------------ -/

theorem processImage_dataUri (d : String) :
    process_image (dataUriPng d) = .ok (.image (.base64 "image/png" d)) := rfl

theorem imageCount_nil : imageCount [] = 0 := rfl

theorem imageCount_cons_img {it : Item} (rest : List Item) (h : it.type = "image_url") :
    imageCount (it :: rest) = imageCount rest + 1 := by
  simp [imageCount, List.filter_cons, h]

theorem imageCount_cons_not {it : Item} (rest : List Item) (h : ¬ it.type = "image_url") :
    imageCount (it :: rest) = imageCount rest := by
  simp [imageCount, List.filter_cons, h]

theorem sizeQ_not_img {it : Item} (h : ¬ it.type = "image_url") : sizeQ it = 0 := by
  simp [sizeQ, h]

theorem sizeQ_img_base64 {it : Item} {u mt d : String}
    (h : it.type = "image_url") (hu : it.image_url = some u)
    (hpi : process_image u = .ok (.image (.base64 mt d))) :
    sizeQ it = 3 * d.length := by
  simp [sizeQ, h, hu, hpi]

theorem sizeQ_img_url {it : Item} {u u2 : String}
    (h : it.type = "image_url") (hu : it.image_url = some u)
    (hpi : process_image u = .ok (.image (.url u2))) :
    sizeQ it = 0 := by
  simp [sizeQ, h, hu, hpi]

theorem sizeQ_img_text {it : Item} {u s : String}
    (h : it.type = "image_url") (hu : it.image_url = some u)
    (hpi : process_image u = .ok (.text s)) :
    sizeQ it = 0 := by
  simp [sizeQ, h, hu, hpi]

theorem itemBlock_text {it : Item} {s : String}
    (h : it.type = "text") (ht : it.text = some s) :
    itemBlock it = some (Block.text s) := by
  simp [itemBlock, h, ht]

theorem itemBlock_img {it : Item} {u : String} {b : Block}
    (h : it.type = "image_url") (hu : it.image_url = some u)
    (hpi : process_image u = .ok b) :
    itemBlock it = some b := by
  have hne : ¬ it.type = "text" := by rw [h]; decide
  simp [itemBlock, h, hne, hu, hpi, Except.toOption]

theorem itemBlock_other {it : Item}
    (h1 : ¬ it.type = "text") (h2 : ¬ it.type = "image_url") :
    itemBlock it = none := by
  simp [itemBlock, h1, h2]

theorem wfItem_text {it : Item} (h : it.type = "text") (hw : wfItem it = true) :
    ∃ s, it.text = some s := by
  rw [wfItem, h] at hw
  simp at hw
  exact Option.isSome_iff_exists.mp hw

theorem wfItem_img {it : Item} (h : it.type = "image_url") (hw : wfItem it = true) :
    ∃ u b, it.image_url = some u ∧ process_image u = .ok b := by
  rw [wfItem, h] at hw
  rcases hu : it.image_url with - | u
  · rw [hu] at hw; simp at hw
  · rw [hu] at hw
    simp at hw
    rcases hpi : process_image u with e | b
    · rw [hpi] at hw; simp [isOkB] at hw
    · exact ⟨u, b, rfl, hpi⟩

@[simp] theorem exceptBind_ok {α β : Type} (a : α) (f : α → Except PyErr β) :
    (Except.ok a >>= f) = f a := rfl

@[simp] theorem exceptBind_err {α β : Type} (e : PyErr) (f : α → Except PyErr β) :
    ((Except.error e : Except PyErr α) >>= f) = .error e := rfl

/-- When every item is well-formed and neither the count cap nor the size
ceiling would be hit, the item loop succeeds, converting exactly the
text/image items and accumulating the image count and quarter-byte
total. -/
theorem processItems_ok (v : Valves) (its : List Item) :
    ∀ (c t4 : Nat), its.all wfItem = true →
      (c : Int) + (imageCount its : Int) ≤ v.MAX_IMAGES →
      (t4 : Int) + ((its.map sizeQ).sum : Int) ≤ limit4 v →
      processItems v its c t4 =
        .ok (its.filterMap itemBlock, c + imageCount its, t4 + (its.map sizeQ).sum) := by
  induction its with
  | nil => intro c t4 _ _ _; simp [processItems, imageCount]
  | cons it rest ih =>
    intro c t4 hwf hcnt hsz
    rw [List.all_cons, Bool.and_eq_true] at hwf
    obtain ⟨hwi, hwr⟩ := hwf
    by_cases htx : it.type = "text"
    · obtain ⟨s, hs⟩ := wfItem_text htx hwi
      have hnimg : ¬ it.type = "image_url" := by rw [htx]; decide
      rw [imageCount_cons_not rest hnimg] at hcnt ⊢
      have hsq : sizeQ it = 0 := sizeQ_not_img hnimg
      rw [List.map_cons, List.sum_cons, hsq, Nat.zero_add] at hsz ⊢
      simp only [processItems]
      rw [if_pos htx]
      simp only [hs]
      rw [ih c t4 hwr hcnt hsz]
      simp [List.filterMap_cons, itemBlock_text htx hs]
    · by_cases himg : it.type = "image_url"
      · obtain ⟨u, b, hu, hpi⟩ := wfItem_img himg hwi
        rw [imageCount_cons_img rest himg] at hcnt ⊢
        rw [List.map_cons, List.sum_cons] at hsz ⊢
        have hclt : ¬ ((c : Int) ≥ v.MAX_IMAGES) := by omega
        have hcnt2 : ((c + 1 : Nat) : Int) + (imageCount rest : Int) ≤ v.MAX_IMAGES := by
          omega
        simp only [processItems]
        rw [if_neg htx, if_pos himg, if_neg hclt]
        rcases b with s | src
        · have hsq : sizeQ it = 0 := sizeQ_img_text himg hu hpi
          rw [hsq, Nat.zero_add] at hsz
          simp only [hu, hpi, exceptBind_ok]
          rw [ih (c + 1) t4 hwr hcnt2 hsz]
          simp [List.filterMap_cons, itemBlock_img himg hu hpi, hsq]
          all_goals omega
        · rcases src with ⟨mt, d⟩ | u2
          · have hsq : sizeQ it = 3 * d.length := sizeQ_img_base64 himg hu hpi
            rw [hsq] at hsz
            have hle : ¬ (((t4 + 3 * d.length : Nat) : Int) > limit4 v) := by
              omega
            have hsz2 : ((t4 + 3 * d.length : Nat) : Int) + ((rest.map sizeQ).sum : Int) ≤ limit4 v := by
              omega
            simp only [hu, hpi, exceptBind_ok]
            rw [if_neg hle]
            rw [ih (c + 1) (t4 + 3 * d.length) hwr hcnt2 hsz2]
            simp [List.filterMap_cons, itemBlock_img himg hu hpi, hsq]
            all_goals omega
          · have hsq : sizeQ it = 0 := sizeQ_img_url himg hu hpi
            rw [hsq, Nat.zero_add] at hsz
            simp only [hu, hpi, exceptBind_ok]
            rw [ih (c + 1) t4 hwr hcnt2 hsz]
            simp [List.filterMap_cons, itemBlock_img himg hu hpi, hsq]
            all_goals omega
      · rw [imageCount_cons_not rest himg] at hcnt ⊢
        have hsq : sizeQ it = 0 := sizeQ_not_img himg
        rw [List.map_cons, List.sum_cons, hsq, Nat.zero_add] at hsz ⊢
        simp only [processItems]
        rw [if_neg htx, if_neg himg, ih c t4 hwr hcnt hsz]
        simp [List.filterMap_cons, itemBlock_other htx himg]

/-- When every item is well-formed, the count cap cannot be hit, and the
running total starts within the ceiling but the items push it past the
ceiling, the item loop fails with the size `ValueError`. -/
theorem processItems_size_err (v : Valves) (its : List Item) :
    ∀ (c t4 : Nat), its.all wfItem = true →
      (c : Int) + (imageCount its : Int) ≤ v.MAX_IMAGES →
      (t4 : Int) ≤ limit4 v →
      (t4 : Int) + ((its.map sizeQ).sum : Int) > limit4 v →
      processItems v its c t4 = .error (.valueError (sizeLimitMsg v.MAX_IMAGE_SIZE_MB)) := by
  induction its with
  | nil => intro c t4 _ _ hle hgt; simp at hgt; omega
  | cons it rest ih =>
    intro c t4 hwf hcnt hle hgt
    rw [List.all_cons, Bool.and_eq_true] at hwf
    obtain ⟨hwi, hwr⟩ := hwf
    by_cases htx : it.type = "text"
    · obtain ⟨s, hs⟩ := wfItem_text htx hwi
      have hnimg : ¬ it.type = "image_url" := by rw [htx]; decide
      rw [imageCount_cons_not rest hnimg] at hcnt
      have hsq : sizeQ it = 0 := sizeQ_not_img hnimg
      rw [List.map_cons, List.sum_cons, hsq, Nat.zero_add] at hgt
      simp only [processItems]
      rw [if_pos htx]
      simp only [hs]
      rw [ih c t4 hwr hcnt hle hgt]
      rfl
    · by_cases himg : it.type = "image_url"
      · obtain ⟨u, b, hu, hpi⟩ := wfItem_img himg hwi
        rw [imageCount_cons_img rest himg] at hcnt
        rw [List.map_cons, List.sum_cons] at hgt
        have hclt : ¬ ((c : Int) ≥ v.MAX_IMAGES) := by omega
        have hcnt2 : ((c + 1 : Nat) : Int) + (imageCount rest : Int) ≤ v.MAX_IMAGES := by omega
        simp only [processItems]
        rw [if_neg htx, if_pos himg, if_neg hclt]
        rcases b with s | src
        · have hsq : sizeQ it = 0 := sizeQ_img_text himg hu hpi
          rw [hsq, Nat.zero_add] at hgt
          simp only [hu, hpi, exceptBind_ok]
          rw [ih (c + 1) t4 hwr hcnt2 hle hgt]
          rfl
        · rcases src with ⟨mt, d⟩ | u2
          · have hsq : sizeQ it = 3 * d.length := sizeQ_img_base64 himg hu hpi
            rw [hsq] at hgt
            simp only [hu, hpi, exceptBind_ok]
            by_cases hbig : (((t4 + 3 * d.length : Nat) : Int) > limit4 v)
            · rw [if_pos hbig]
            · rw [if_neg hbig]
              have hle2 : (((t4 + 3 * d.length : Nat) : Int)) ≤ limit4 v := by omega
              have hgt2 : (((t4 + 3 * d.length : Nat) : Int)) + ((rest.map sizeQ).sum : Int) > limit4 v := by
                omega
              rw [ih (c + 1) (t4 + 3 * d.length) hwr hcnt2 hle2 hgt2]
              rfl
          · have hsq : sizeQ it = 0 := sizeQ_img_url himg hu hpi
            rw [hsq, Nat.zero_add] at hgt
            simp only [hu, hpi, exceptBind_ok]
            rw [ih (c + 1) t4 hwr hcnt2 hle hgt]
            rfl
      · rw [imageCount_cons_not rest himg] at hcnt
        have hsq : sizeQ it = 0 := sizeQ_not_img himg
        rw [List.map_cons, List.sum_cons, hsq, Nat.zero_add] at hgt
        simp only [processItems]
        rw [if_neg htx, if_neg himg, ih c t4 hwr hcnt hle hgt]

/-- When every item is well-formed, the size ceiling cannot be hit, the
count starts within the cap but the items push it past the cap, the item
loop fails with the image-count `ValueError`. -/
theorem processItems_count_err (v : Valves) (its : List Item) :
    ∀ (c t4 : Nat), its.all wfItem = true →
      (c : Int) ≤ v.MAX_IMAGES →
      (t4 : Int) + ((its.map sizeQ).sum : Int) ≤ limit4 v →
      (c : Int) + (imageCount its : Int) > v.MAX_IMAGES →
      processItems v its c t4 = .error (.valueError (maxImagesMsg v.MAX_IMAGES)) := by
  induction its with
  | nil => intro c t4 _ hle _ hgt; simp [imageCount] at hgt; omega
  | cons it rest ih =>
    intro c t4 hwf hle hsz hgt
    rw [List.all_cons, Bool.and_eq_true] at hwf
    obtain ⟨hwi, hwr⟩ := hwf
    by_cases htx : it.type = "text"
    · obtain ⟨s, hs⟩ := wfItem_text htx hwi
      have hnimg : ¬ it.type = "image_url" := by rw [htx]; decide
      rw [imageCount_cons_not rest hnimg] at hgt
      have hsq : sizeQ it = 0 := sizeQ_not_img hnimg
      rw [List.map_cons, List.sum_cons, hsq, Nat.zero_add] at hsz
      simp only [processItems]
      rw [if_pos htx]
      simp only [hs]
      rw [ih c t4 hwr hle hsz hgt]
      rfl
    · by_cases himg : it.type = "image_url"
      · rw [imageCount_cons_img rest himg] at hgt
        rw [List.map_cons, List.sum_cons] at hsz
        simp only [processItems]
        rw [if_neg htx, if_pos himg]
        by_cases hcge : ((c : Int) ≥ v.MAX_IMAGES)
        · rw [if_pos hcge]
        · rw [if_neg hcge]
          obtain ⟨u, b, hu, hpi⟩ := wfItem_img himg hwi
          have hle2 : ((c + 1 : Nat) : Int) ≤ v.MAX_IMAGES := by omega
          have hgt2 : ((c + 1 : Nat) : Int) + (imageCount rest : Int) > v.MAX_IMAGES := by omega
          rcases b with s | src
          · have hsq : sizeQ it = 0 := sizeQ_img_text himg hu hpi
            rw [hsq, Nat.zero_add] at hsz
            simp only [hu, hpi, exceptBind_ok]
            rw [ih (c + 1) t4 hwr hle2 hsz hgt2]
            rfl
          · rcases src with ⟨mt, d⟩ | u2
            · have hsq : sizeQ it = 3 * d.length := sizeQ_img_base64 himg hu hpi
              rw [hsq] at hsz
              have hnbig : ¬ (((t4 + 3 * d.length : Nat) : Int) > limit4 v) := by omega
              have hsz2 : (((t4 + 3 * d.length : Nat) : Int)) + ((rest.map sizeQ).sum : Int) ≤ limit4 v := by
                omega
              simp only [hu, hpi, exceptBind_ok]
              rw [if_neg hnbig]
              rw [ih (c + 1) (t4 + 3 * d.length) hwr hle2 hsz2 hgt2]
              rfl
            · have hsq : sizeQ it = 0 := sizeQ_img_url himg hu hpi
              rw [hsq, Nat.zero_add] at hsz
              simp only [hu, hpi, exceptBind_ok]
              rw [ih (c + 1) t4 hwr hle2 hsz hgt2]
              rfl
      · rw [imageCount_cons_not rest himg] at hgt
        have hsq : sizeQ it = 0 := sizeQ_not_img himg
        rw [List.map_cons, List.sum_cons, hsq, Nat.zero_add] at hsz
        simp only [processItems]
        rw [if_neg htx, if_neg himg, ih c t4 hwr hle hsz hgt]

theorem imageCountM_cons (m : Message) (rest : List Message) :
    imageCountM (m :: rest) = imageCount (msgItems m) + imageCountM rest := by
  simp [imageCountM]

theorem sizeQM_cons (m : Message) (rest : List Message) :
    sizeQM (m :: rest) = ((msgItems m).map sizeQ).sum + sizeQM rest := by
  simp [sizeQM]

theorem msgItems_items {m : Message} {l : List Item} (h : m.content = some (.items l)) :
    msgItems m = l := by
  simp [msgItems, h]

theorem msgItems_str {m : Message} {s : String} (h : m.content = some (.str s)) :
    msgItems m = [] := by
  simp [msgItems, h]

theorem msgItems_none {m : Message} (h : m.content = none) :
    msgItems m = [] := by
  simp [msgItems, h]

/-- Message-loop success: when every turn is well-formed and neither limit
would be hit, the loop returns exactly the expected normalized turns with
the accumulated counts. -/
theorem processMessages_ok (v : Valves) (msgs : List Message) :
    ∀ (c t4 : Nat), msgs.all wfMsg = true →
      (c : Int) + (imageCountM msgs : Int) ≤ v.MAX_IMAGES →
      (t4 : Int) + (sizeQM msgs : Int) ≤ limit4 v →
      processMessages v msgs c t4 =
        .ok (msgs.map expectedPMsg, c + imageCountM msgs, t4 + sizeQM msgs) := by
  induction msgs with
  | nil => intro c t4 _ _ _; simp [processMessages, imageCountM, sizeQM]
  | cons m rest ih =>
    intro c t4 hwf hcnt hsz
    rw [List.all_cons, Bool.and_eq_true] at hwf
    obtain ⟨hwm, hwr⟩ := hwf
    rw [imageCountM_cons] at hcnt ⊢
    rw [sizeQM_cons] at hsz ⊢
    simp only [processMessages, processMessage]
    rcases hmc : m.content with - | cv
    · have hmi : msgItems m = [] := msgItems_none hmc
      rw [hmi] at hcnt hsz ⊢
      simp only [hmc, imageCount_nil, List.map_nil, List.sum_nil, Nat.zero_add] at hcnt hsz ⊢
      rw [exceptBind_ok]
      rw [ih c t4 hwr hcnt hsz]
      simp [expectedPMsg, expectedBlocks, hmc]
    · rcases cv with s | l
      · have hmi : msgItems m = [] := msgItems_str hmc
        rw [hmi] at hcnt hsz ⊢
        simp only [hmc, imageCount_nil, List.map_nil, List.sum_nil, Nat.zero_add] at hcnt hsz ⊢
        rw [exceptBind_ok]
        rw [ih c t4 hwr hcnt hsz]
        simp [expectedPMsg, expectedBlocks, hmc]
      · have hmi : msgItems m = l := msgItems_items hmc
        rw [hmi] at hcnt hsz ⊢
        rw [wfMsg, hmi] at hwm
        simp only [hmc]
        rw [processItems_ok v l c t4 hwm (by omega) (by omega)]
        rw [exceptBind_ok, exceptBind_ok]
        rw [ih (c + imageCount l) (t4 + (l.map sizeQ).sum) hwr (by omega) (by omega)]
        simp [expectedPMsg, expectedBlocks, hmc]
        omega

/-- Message-loop size failure: well-formed turns whose total pushes the
running total past the ceiling (while the count cap is never hit) fail
with the size `ValueError`. -/
theorem processMessages_size_err (v : Valves) (msgs : List Message) :
    ∀ (c t4 : Nat), msgs.all wfMsg = true →
      (c : Int) + (imageCountM msgs : Int) ≤ v.MAX_IMAGES →
      (t4 : Int) ≤ limit4 v →
      (t4 : Int) + (sizeQM msgs : Int) > limit4 v →
      processMessages v msgs c t4 = .error (.valueError (sizeLimitMsg v.MAX_IMAGE_SIZE_MB)) := by
  induction msgs with
  | nil => intro c t4 _ _ hle hgt; simp [sizeQM] at hgt; omega
  | cons m rest ih =>
    intro c t4 hwf hcnt hle hgt
    rw [List.all_cons, Bool.and_eq_true] at hwf
    obtain ⟨hwm, hwr⟩ := hwf
    rw [imageCountM_cons] at hcnt
    rw [sizeQM_cons] at hgt
    simp only [processMessages, processMessage]
    rcases hmc : m.content with - | cv
    · have hmi : msgItems m = [] := msgItems_none hmc
      rw [hmi] at hcnt hgt
      simp only [hmc, imageCount_nil, List.map_nil, List.sum_nil, Nat.zero_add] at hcnt hgt
      rw [exceptBind_ok]
      rw [ih c t4 hwr hcnt hle hgt]
      rfl
    · rcases cv with s | l
      · have hmi : msgItems m = [] := msgItems_str hmc
        rw [hmi] at hcnt hgt
        simp only [hmc, imageCount_nil, List.map_nil, List.sum_nil, Nat.zero_add] at hcnt hgt
        rw [exceptBind_ok]
        rw [ih c t4 hwr hcnt hle hgt]
        rfl
      · have hmi : msgItems m = l := msgItems_items hmc
        rw [hmi] at hcnt hgt
        rw [wfMsg, hmi] at hwm
        simp only [hmc]
        by_cases hbig : ((t4 : Int) + ((l.map sizeQ).sum : Int) > limit4 v)
        · rw [processItems_size_err v l c t4 hwm (by omega) hle hbig]
          rfl
        · rw [processItems_ok v l c t4 hwm (by omega) (by omega)]
          rw [exceptBind_ok, exceptBind_ok]
          rw [ih (c + imageCount l) (t4 + (l.map sizeQ).sum) hwr (by omega) (by omega) (by omega)]
          rfl

/-- Message-loop count failure: well-formed turns with more images than
the cap (while the size ceiling is never hit) fail with the image-count
`ValueError`. -/
theorem processMessages_count_err (v : Valves) (msgs : List Message) :
    ∀ (c t4 : Nat), msgs.all wfMsg = true →
      (c : Int) ≤ v.MAX_IMAGES →
      (t4 : Int) + (sizeQM msgs : Int) ≤ limit4 v →
      (c : Int) + (imageCountM msgs : Int) > v.MAX_IMAGES →
      processMessages v msgs c t4 = .error (.valueError (maxImagesMsg v.MAX_IMAGES)) := by
  induction msgs with
  | nil => intro c t4 _ hle _ hgt; simp [imageCountM] at hgt; omega
  | cons m rest ih =>
    intro c t4 hwf hle hsz hgt
    rw [List.all_cons, Bool.and_eq_true] at hwf
    obtain ⟨hwm, hwr⟩ := hwf
    rw [imageCountM_cons] at hgt
    rw [sizeQM_cons] at hsz
    simp only [processMessages, processMessage]
    rcases hmc : m.content with - | cv
    · have hmi : msgItems m = [] := msgItems_none hmc
      rw [hmi] at hgt hsz
      simp only [hmc, imageCount_nil, List.map_nil, List.sum_nil, Nat.zero_add] at hgt hsz
      rw [exceptBind_ok]
      rw [ih c t4 hwr hle hsz hgt]
      rfl
    · rcases cv with s | l
      · have hmi : msgItems m = [] := msgItems_str hmc
        rw [hmi] at hgt hsz
        simp only [hmc, imageCount_nil, List.map_nil, List.sum_nil, Nat.zero_add] at hgt hsz
        rw [exceptBind_ok]
        rw [ih c t4 hwr hle hsz hgt]
        rfl
      · have hmi : msgItems m = l := msgItems_items hmc
        rw [hmi] at hgt hsz
        rw [wfMsg, hmi] at hwm
        simp only [hmc]
        by_cases hover : ((c : Int) + (imageCount l : Int) > v.MAX_IMAGES)
        · rw [processItems_count_err v l c t4 hwm hle (by omega) hover]
          rfl
        · rw [processItems_ok v l c t4 hwm (by omega) (by omega)]
          rw [exceptBind_ok, exceptBind_ok]
          rw [ih (c + imageCount l) (t4 + (l.map sizeQ).sum) hwr (by omega) (by omega) (by omega)]
          rfl

theorem attachSystem_messages (p : Payload) (sys : Option ContentVal) :
    (attachSystem p sys).messages = p.messages := by
  rcases sys with - | c
  · rfl
  · by_cases h : pyTruthyContent c = true
    · simp [attachSystem, h]
    · simp [attachSystem, h]

/-- `process_image` only ever returns image blocks. -/
theorem process_image_is_image {u : String} {b : Block} (h : process_image u = .ok b) :
    ∃ src, b = .image src := by
  unfold process_image processImageTry at h
  by_cases hs : pyStartsWith u "data:image" = true
  · rw [if_pos hs] at h
    rcases hsp : pySplit1 u ',' with - | ⟨mime, data⟩
    · simp only [hsp] at h
      exact Except.noConfusion h
    · simp only [hsp] at h
      rcases hsa : pySplitAll mime ':' with - | ⟨first, rest2⟩
      · simp only [hsa] at h
        exact Except.noConfusion h
      · rcases rest2 with - | ⟨second, rest3⟩
        · simp only [hsa] at h
          exact Except.noConfusion h
        · simp only [hsa, Except.ok.injEq] at h
          exact ⟨_, h.symm⟩
  · rw [if_neg hs] at h
    simp only [Except.ok.injEq] at h
    exact ⟨_, h.symm⟩

/-- For well-formed items, the converted block list holds exactly one
image block per `image_url` item. -/
theorem filterMap_imageCount (l : List Item) (h : l.all wfItem = true) :
    ((l.filterMap itemBlock).filter isImageBlock).length = imageCount l := by
  induction l with
  | nil => rfl
  | cons it rest ih =>
    rw [List.all_cons, Bool.and_eq_true] at h
    obtain ⟨hwi, hwr⟩ := h
    by_cases htx : it.type = "text"
    · obtain ⟨s, hs⟩ := wfItem_text htx hwi
      have hnimg : ¬ it.type = "image_url" := by rw [htx]; decide
      rw [List.filterMap_cons, itemBlock_text htx hs, imageCount_cons_not rest hnimg]
      simp [List.filter_cons, isImageBlock, ih hwr]
    · by_cases himg : it.type = "image_url"
      · obtain ⟨u, b, hu, hpi⟩ := wfItem_img himg hwi
        obtain ⟨src, hb⟩ := process_image_is_image hpi
        rw [List.filterMap_cons, itemBlock_img himg hu hpi, imageCount_cons_img rest himg, hb]
        simp [List.filter_cons, isImageBlock, ih hwr]
      · rw [List.filterMap_cons, itemBlock_other htx himg, imageCount_cons_not rest himg]
        exact ih hwr

/-- Under well-formedness, the normalized turns carry exactly `imageCountM`
image blocks in total. -/
theorem expected_payloadImageCount (msgs : List Message) (h : msgs.all wfMsg = true) :
    ((msgs.map expectedPMsg).map (fun pm => (pm.content.filter isImageBlock).length)).sum =
      imageCountM msgs := by
  induction msgs with
  | nil => rfl
  | cons m rest ih =>
    rw [List.all_cons, Bool.and_eq_true] at h
    obtain ⟨hwm, hwr⟩ := h
    rw [List.map_cons, List.map_cons, List.sum_cons, imageCountM_cons, ih hwr]
    congr 1
    rcases hmc : m.content with - | cv
    · rw [msgItems_none hmc]
      simp [expectedPMsg, expectedBlocks, hmc, List.filter_cons, isImageBlock, imageCount]
    · rcases cv with s | l
      · rw [msgItems_str hmc]
        simp [expectedPMsg, expectedBlocks, hmc, List.filter_cons, isImageBlock, imageCount]
      · rw [msgItems_items hmc]
        rw [wfMsg, msgItems_items hmc] at hwm
        simp only [expectedPMsg, expectedBlocks, hmc]
        exact filterMap_imageCount l hwm

/-- When all limits and well-formedness conditions hold, `assembledPayload`
succeeds with the expected normalized turns. -/
theorem assembled_ok (v : Valves) (mid : String) (body : Body) (msgs : List Message)
    (sys : Option ContentVal) (rest : List Message)
    (hpop : pop_system_message msgs = .ok (sys, rest))
    (hwf : rest.all wfMsg = true)
    (hcnt : (imageCountM rest : Int) ≤ v.MAX_IMAGES)
    (hsz : (sizeQM rest : Int) ≤ limit4 v) :
    assembledPayload v mid msgs body =
      .ok (attachSystem (buildPayload v mid (rest.map expectedPMsg) (cleanBody body)) sys) := by
  unfold assembledPayload
  rw [hpop, exceptBind_ok]
  rw [processMessages_ok v rest 0 0 hwf (by omega) (by omega), exceptBind_ok]
  rfl

/-- When the exact cumulative size exceeds the ceiling (and the count cap
is not hit first), `assembledPayload` fails with the size `ValueError`. -/
theorem assembled_size_err (v : Valves) (mid : String) (body : Body) (msgs : List Message)
    (sys : Option ContentVal) (rest : List Message)
    (hpop : pop_system_message msgs = .ok (sys, rest))
    (hwf : rest.all wfMsg = true)
    (hcnt : (imageCountM rest : Int) ≤ v.MAX_IMAGES)
    (hmb : 0 ≤ v.MAX_IMAGE_SIZE_MB)
    (hover : (sizeQM rest : Int) > limit4 v) :
    assembledPayload v mid msgs body =
      .error (.valueError (sizeLimitMsg v.MAX_IMAGE_SIZE_MB)) := by
  have hl : (0 : Int) ≤ limit4 v := by
    have : limit4 v = v.MAX_IMAGE_SIZE_MB * 4194304 := by unfold limit4; ring
    rw [this]; positivity
  unfold assembledPayload
  rw [hpop, exceptBind_ok]
  rw [processMessages_size_err v rest 0 0 hwf (by omega) (by omega) (by omega)]
  rfl

/-- When the image count exceeds the cap (and the size ceiling is not hit
first), `assembledPayload` fails with the image-count `ValueError`. -/
theorem assembled_count_err (v : Valves) (mid : String) (body : Body) (msgs : List Message)
    (sys : Option ContentVal) (rest : List Message)
    (hpop : pop_system_message msgs = .ok (sys, rest))
    (hwf : rest.all wfMsg = true)
    (hmax : 0 ≤ v.MAX_IMAGES)
    (hsz : (sizeQM rest : Int) ≤ limit4 v)
    (hover : (imageCountM rest : Int) > v.MAX_IMAGES) :
    assembledPayload v mid msgs body =
      .error (.valueError (maxImagesMsg v.MAX_IMAGES)) := by
  unfold assembledPayload
  rw [hpop, exceptBind_ok]
  rw [processMessages_count_err v rest 0 0 hwf (by omega) (by omega) (by omega)]
  rfl

theorem errOnlyFinal_cons_out (x : Json) (l : List Chunk) :
    errOnlyFinal (Chunk.out x :: l) = errOnlyFinal l := by
  cases l with
  | nil => rfl
  | cons a as => simp [errOnlyFinal, Chunk.isErr]

/-- Every decoded chunk sequence has error chunks only in final
position. -/
theorem errOnlyFinal_decodeEvents (es : List SSEvent) (tail : Option TransportErr) :
    errOnlyFinal (decodeEvents es tail) = true := by
  induction es with
  | nil => cases tail <;> rfl
  | cons e rest ih =>
    rcases hd : e.data with - | j
    · simp only [decodeEvents, hd]; exact ih
    · rcases hpe : processEvent j with pe | sr
      · rcases pe with m | k | m | -
        · simp only [decodeEvents, hd, hpe]; rfl
        · simp only [decodeEvents, hd, hpe]; exact ih
        · simp only [decodeEvents, hd, hpe]; rfl
        · simp only [decodeEvents, hd, hpe]; rfl
      · rcases sr with x | - | -
        · simp only [decodeEvents, hd, hpe]
          rw [errOnlyFinal_cons_out]; exact ih
        · simp only [decodeEvents, hd, hpe]; exact ih
        · simp only [decodeEvents, hd, hpe]; rfl

/-- The whole streaming generator has error chunks only in final
position. -/
theorem errOnlyFinal_stream_response (up : Upstream) (p : Payload) :
    errOnlyFinal (stream_response up p) = true := by
  unfold stream_response
  rcases up.stream p with t | r
  · rfl
  · dsimp only
    by_cases hst : r.status ≠ 200
    · rw [if_pos hst]; rfl
    · rw [if_neg hst]; exact errOnlyFinal_decodeEvents r.events r.tail

theorem pipe_of_assembled_err {v : Valves} {um mid : String} {msgs : List Message}
    {body : Body} {up : Upstream} {e : PyErr}
    (h : assembledPayload v mid msgs body = .error e) :
    pipe v um mid msgs body up = .errText ("Error: " ++ pyErrStr e) := by
  unfold pipe pipeTry
  rw [h]
  rfl

theorem pipe_of_stream {v : Valves} {um mid : String} {msgs : List Message}
    {body : Body} {up : Upstream} {p : Payload}
    (h : assembledPayload v mid msgs body = .ok p) (hst : p.stream = true) :
    pipe v um mid msgs body up = .stream (stream_response up p) := by
  unfold pipe pipeTry
  rw [h, exceptBind_ok, if_pos hst]
  rfl

theorem pipe_of_completion_val {v : Valves} {um mid : String} {msgs : List Message}
    {body : Body} {up : Upstream} {p : Payload} {j : Json}
    (h : assembledPayload v mid msgs body = .ok p) (hst : p.stream = false)
    (hgc : get_completion up p = .val j) :
    pipe v um mid msgs body up = .ok j := by
  unfold pipe pipeTry
  rw [h, exceptBind_ok, hst]
  simp only [Bool.false_eq_true, if_false, hgc]
  rfl

theorem pipe_of_completion_err {v : Valves} {um mid : String} {msgs : List Message}
    {body : Body} {up : Upstream} {p : Payload} {s : String}
    (h : assembledPayload v mid msgs body = .ok p) (hst : p.stream = false)
    (hgc : get_completion up p = .errS s) :
    pipe v um mid msgs body up = .errText s := by
  unfold pipe pipeTry
  rw [h, exceptBind_ok, hst]
  simp only [Bool.false_eq_true, if_false, hgc]
  rfl

/- ------------------------------------------------------------------ -/
/- Claim theorems.                                                     -/
/- ------------------------------------------------------------------ -/

/-- C3: for every message list whose first turn has role `"system"`,
extraction returns that turn's content together with the list with exactly
that first turn removed; when the first turn's role is not `"system"`, it
returns no system content and the list unchanged — so a system-role turn
at any later position is passed through untouched. -/
theorem c3_pop_system_first_turn_only (m : Message) (rest : List Message) :
    (∀ c, m.role = "system" → m.content = some c →
      pop_system_message (m :: rest) = .ok (some c, rest)) ∧
    (m.role ≠ "system" →
      pop_system_message (m :: rest) = .ok (none, m :: rest)) := by
  constructor
  · intro c hr hc
    simp [pop_system_message, hr, hc]
  · intro hr
    simp [pop_system_message, hr]

/-- Witness for C3 at a concrete input. -/
theorem c3_pop_system_first_turn_only_witness :
    pop_system_message (⟨"system", some (.str "Be terse")⟩ :: [mUserHi]) =
      .ok (some (.str "Be terse"), [mUserHi]) :=
  (c3_pop_system_first_turn_only ⟨"system", some (.str "Be terse")⟩ [mUserHi]).1
    (.str "Be terse") rfl rfl

/-- C5: decoding the event sequence
`[content_block_start "Hi", content_block_delta " there", message_stop]`
produces exactly the chunks `["Hi", " there"]` in order, and after
`message_stop` no further chunks are produced no matter what events (or
trailing transport failure) follow. -/
theorem c5_decode_stop_sequence (es : List SSEvent) (tail : Option TransportErr) :
    decodeEvents (evStart "Hi" :: evDelta " there" :: evStop :: es) tail =
      [Chunk.out (.str "Hi"), Chunk.out (.str " there")] := rfl

/-- C6: each generation parameter of the assembled request comes from the
options bag when supplied (exactly that value) and from the adapter's
configured default otherwise (the valve defaults; the empty list for stop
sequences; false for stream). -/
theorem c6_generation_param_defaults (v : Valves) (mid : String)
    (pm : List PMessage) (body : Body) :
    ((body.max_tokens = none →
        (buildPayload v mid pm body).max_tokens = v.DEFAULT_MAX_TOKENS) ∧
      (∀ x, body.max_tokens = some x → (buildPayload v mid pm body).max_tokens = x)) ∧
    ((body.temperature = none →
        (buildPayload v mid pm body).temperature = v.DEFAULT_TEMPERATURE) ∧
      (∀ x, body.temperature = some x → (buildPayload v mid pm body).temperature = x)) ∧
    ((body.top_k = none →
        (buildPayload v mid pm body).top_k = v.DEFAULT_TOP_K) ∧
      (∀ x, body.top_k = some x → (buildPayload v mid pm body).top_k = x)) ∧
    ((body.top_p = none →
        (buildPayload v mid pm body).top_p = v.DEFAULT_TOP_P) ∧
      (∀ x, body.top_p = some x → (buildPayload v mid pm body).top_p = x)) ∧
    ((body.stop = none →
        (buildPayload v mid pm body).stop_sequences = []) ∧
      (∀ x, body.stop = some x → (buildPayload v mid pm body).stop_sequences = x)) ∧
    ((body.stream = none →
        (buildPayload v mid pm body).stream = false) ∧
      (∀ x, body.stream = some x → (buildPayload v mid pm body).stream = x)) := by
  refine ⟨⟨?_, ?_⟩, ⟨?_, ?_⟩, ⟨?_, ?_⟩, ⟨?_, ?_⟩, ⟨?_, ?_⟩, ⟨?_, ?_⟩⟩ <;>
    intros <;> simp_all [buildPayload]

/-- Witness for C6 at a concrete input: a supplied max-tokens value
overrides the default. -/
theorem c6_generation_param_defaults_witness :
    (buildPayload vDefault "m" [] { max_tokens := some 123 }).max_tokens = 123 :=
  (c6_generation_param_defaults vDefault "m" [] { max_tokens := some 123 }).1.2 123 rfl

/-- C9: a content item whose type tag is neither `"text"` nor
`"image_url"` is silently dropped by the item loop: processing a list with
such an item anywhere in it gives exactly the result of processing the
list with that item removed (no block, no state change, no error). -/
theorem c9_unknown_item_tag_dropped (v : Valves) (it : Item)
    (pre suf : List Item) (c t4 : Nat)
    (h1 : ¬ it.type = "text") (h2 : ¬ it.type = "image_url") :
    processItems v (pre ++ it :: suf) c t4 = processItems v (pre ++ suf) c t4 := by
  induction pre generalizing c t4 with
  | nil =>
    simp only [List.nil_append]
    conv_lhs => rw [processItems]
    rw [if_neg h1, if_neg h2]
  | cons a pre ih =>
    simp only [List.cons_append]
    conv_lhs => rw [processItems]
    conv_rhs => rw [processItems]
    by_cases htx : a.type = "text"
    · rw [if_pos htx, if_pos htx]
      rcases a.text with - | s
      · rfl
      · dsimp only
        rw [ih c t4]
    · rw [if_neg htx, if_neg htx]
      by_cases himg : a.type = "image_url"
      · rw [if_pos himg, if_pos himg]
        by_cases hge : ((c : Int) ≥ v.MAX_IMAGES)
        · rw [if_pos hge, if_pos hge]
        · rw [if_neg hge, if_neg hge]
          rcases a.image_url with - | u
          · rfl
          · dsimp only
            rcases process_image u with e | b
            · rfl
            · dsimp only [exceptBind_ok]
              rcases b with s | src
              · dsimp only
                rw [ih (c + 1) t4]
              · rcases src with ⟨mt, d⟩ | u2
                · dsimp only
                  by_cases hbig : (((t4 + 3 * d.length : Nat) : Int) > limit4 v)
                  · rw [if_pos hbig, if_pos hbig]
                  · rw [if_neg hbig, if_neg hbig, ih (c + 1) (t4 + 3 * d.length)]
                · dsimp only
                  rw [ih (c + 1) t4]
      · rw [if_neg himg, if_neg himg]
        exact ih c t4

/-- Witness for C9 at a concrete input: an item tagged `"image"` (not
`"image_url"`) is dropped, not converted. -/
theorem c9_unknown_item_tag_dropped_witness :
    processItems vDefault ([⟨"text", some "a", none⟩] ++ ⟨"image", none, some "x"⟩ :: [⟨"text", some "b", none⟩]) 0 0 =
      processItems vDefault ([⟨"text", some "a", none⟩] ++ [⟨"text", some "b", none⟩]) 0 0 :=
  c9_unknown_item_tag_dropped vDefault ⟨"image", none, some "x"⟩
    [⟨"text", some "a", none⟩] [⟨"text", some "b", none⟩] 0 0
    (by decide) (by decide)

/-- C10: a turn whose content is a plain (non-list) value normalizes to
exactly one text block holding that value, and a turn with no content key
normalizes to one text block holding the empty string, with no error and
no state change. -/
theorem c10_nonlist_content_single_text (v : Valves) (m : Message) (c t4 : Nat) :
    (∀ s, m.content = some (.str s) →
      processMessage v m c t4 = .ok (⟨m.role, [Block.text s]⟩, c, t4)) ∧
    (m.content = none →
      processMessage v m c t4 = .ok (⟨m.role, [Block.text ""]⟩, c, t4)) := by
  constructor
  · intro s h
    simp [processMessage, h]
  · intro h
    simp [processMessage, h]

/-- Witness for C10 at a concrete input. -/
theorem c10_nonlist_content_single_text_witness :
    processMessage vDefault mUserHi 0 0 = .ok (⟨"user", [Block.text "Hi"]⟩, 0, 0) :=
  (c10_nonlist_content_single_text vDefault mUserHi 0 0).1 "Hi" rfl

/-- C8: a malformed stream event — unparseable JSON data, an unrecognized
type tag, or a missing expected field (`KeyError`) — is skipped: decoding
any event sequence containing it equals decoding the sequence with that
event removed, so the chunks of surrounding valid events are all still
produced in order and the stream is never aborted by such an event. -/
theorem c8_malformed_event_skipped (e : SSEvent) (pre suf : List SSEvent)
    (tail : Option TransportErr) (h : skippable e = true) :
    decodeEvents (pre ++ e :: suf) tail = decodeEvents (pre ++ suf) tail := by
  induction pre with
  | nil =>
    simp only [List.nil_append]
    rw [skippable] at h
    rcases hd : e.data with - | j
    · simp only [decodeEvents, hd]
    · simp only [hd] at h
      rcases hpe : processEvent j with pe | sr
      · rcases pe with m | k | m | -
        · rw [hpe] at h; simp at h
        · simp only [decodeEvents, hd, hpe]
        · rw [hpe] at h; simp at h
        · rw [hpe] at h; simp at h
      · rcases sr with x | - | -
        · rw [hpe] at h; simp at h
        · simp only [decodeEvents, hd, hpe]
        · rw [hpe] at h; simp at h
  | cons a pre ih =>
    simp only [List.cons_append]
    conv_lhs => rw [decodeEvents]
    conv_rhs => rw [decodeEvents]
    rcases hd : a.data with - | j
    · simp only [hd]
      exact ih
    · simp only [hd]
      rcases hpe : processEvent j with pe | sr
      · rcases pe with m | k | m | -
        · simp only [hpe]
        · simp only [hpe]; exact ih
        · simp only [hpe]
        · simp only [hpe]
      · rcases sr with x | - | -
        · simp only [hpe]; rw [ih]
        · simp only [hpe]; exact ih
        · simp only [hpe]

/-- Witness for C8 at a concrete input: an event with an unrecognized
type tag between two valid events. -/
theorem c8_malformed_event_skipped_witness :
    decodeEvents ([evStart "Hi"] ++ evPing :: [evDelta " there"]) none =
      decodeEvents ([evStart "Hi"] ++ [evDelta " there"]) none :=
  c8_malformed_event_skipped evPing [evStart "Hi"] [evDelta " there"] none rfl

/-- C7 (amended): in the assembled request, extracted system content that
is present and truthy (a non-empty string, or a non-empty list) is
attached as the `system` field coerced to a string; when the content is
absent — or present but falsy, such as the empty string, which the
source's `if system_message:` check also drops — the field is omitted
entirely. -/
theorem c7_system_field_truthy (v : Valves) (mid : String) (body : Body)
    (msgs : List Message) (sys : Option ContentVal) (rest : List Message) (p : Payload)
    (hpop : pop_system_message msgs = .ok (sys, rest))
    (hp : assembledPayload v mid msgs body = .ok p) :
    (∀ c, sys = some c → pyTruthyContent c = true → p.system = some (pyStrContent c)) ∧
    (∀ c, sys = some c → pyTruthyContent c = false → p.system = none) ∧
    (sys = none → p.system = none) := by
  unfold assembledPayload at hp
  rw [hpop, exceptBind_ok] at hp
  rcases hpm : processMessages v rest 0 0 with e | t
  · rw [hpm] at hp
    exact Except.noConfusion hp
  · rw [hpm, exceptBind_ok] at hp
    have hp2 : attachSystem (buildPayload v mid t.1 (cleanBody body)) sys = p :=
      Except.ok.inj hp
    refine ⟨?_, ?_, ?_⟩
    · intro c hc htr
      rw [← hp2, hc]
      simp [attachSystem, htr]
    · intro c hc htr
      rw [← hp2, hc]
      simp [attachSystem, htr, buildPayload]
    · intro hc
      rw [← hp2, hc]
      simp [attachSystem, buildPayload]

/-- Witness for C7 (amended) at a concrete input: a non-empty system
string is attached verbatim. -/
theorem c7_system_field_truthy_witness :
    payload7wit.system = some (pyStrContent (.str "Be terse")) :=
  (c7_system_field_truthy vDefault "m" b0 msgs7wit (some (.str "Be terse")) [mUserHi]
      payload7wit rfl rfl).1 (.str "Be terse") rfl rfl

/-- Counterexample to C7 as stated: in `msgs7cex` the first turn is a
system turn with (empty-string) content, so extracted system content is
present, yet the assembled request omits the `system` field because the
source tests Python truthiness, not presence. -/
theorem c7_system_field_cex :
    pop_system_message msgs7cex = .ok (some (.str ""), [mUserHi]) ∧
    assembledPayload vDefault "m" msgs7cex b0 =
      .ok ⟨"m", [⟨"user", [Block.text "Hi"]⟩], 4096, 0.8, 40, 0.9, [], false, none⟩ :=
  ⟨rfl, rfl⟩

theorem sizeQ_imgItem (d : String) : sizeQ (imgItem d) = 3 * d.length :=
  sizeQ_img_base64 rfl rfl (processImage_dataUri d)

/-- C2 (amended): the cumulative decoded size is accumulated exactly as
`len(base64_data) * 3 / 4` per image with no rounding (tracked here as
`sizeQM`, four times the byte total), summed across all base64 images of
the call.  Under well-formed turns within the image-count cap, when the
running sum exceeds the configured megabyte ceiling the call fails with a
`ValueError` naming the configured megabyte limit, and when the sum is at
(in particular exactly at) the ceiling the normalization succeeds. -/
theorem c2_size_ceiling_exact (v : Valves) (mid : String) (body : Body)
    (msgs : List Message) (sys : Option ContentVal) (rest : List Message)
    (hpop : pop_system_message msgs = .ok (sys, rest))
    (hwf : rest.all wfMsg = true)
    (hcnt : (imageCountM rest : Int) ≤ v.MAX_IMAGES)
    (hmb : 0 ≤ v.MAX_IMAGE_SIZE_MB) :
    ((sizeQM rest : Int) > limit4 v →
      assembledPayload v mid msgs body =
        .error (.valueError (sizeLimitMsg v.MAX_IMAGE_SIZE_MB)) ∧
      ∀ (um : String) (up : Upstream),
        pipe v um mid msgs body up =
          .errText ("Error: " ++ sizeLimitMsg v.MAX_IMAGE_SIZE_MB)) ∧
    ((sizeQM rest : Int) ≤ limit4 v →
      ∃ p, assembledPayload v mid msgs body = .ok p) := by
  constructor
  · intro hover
    have he := assembled_size_err v mid body msgs sys rest hpop hwf hcnt hmb hover
    exact ⟨he, fun um up => pipe_of_assembled_err he⟩
  · intro hle
    exact ⟨_, assembled_ok v mid body msgs sys rest hpop hwf hcnt hle⟩

/-- Witness for C2 (amended) at a concrete input: one small image within
the ceiling succeeds. -/
theorem c2_size_ceiling_exact_witness :
    ∃ p, assembledPayload vDefault "m" msgsOneImg b0 = .ok p :=
  (c2_size_ceiling_exact vDefault "m" b0 msgsOneImg none msgsOneImg rfl (by decide)
    (by decide) (by decide)).2 (by decide)

/-- Counterexample to C2 as stated: with a 1MB ceiling and base64 payload
lengths 3, 3 and 1398095, the per-image `ceil(len * 3/4)` sizes total
1048578 bytes — over the 1048576-byte ceiling, so the claim demands a
`ValidationError` — yet the adapter accumulates the exact (unrounded)
quarter-byte sizes, totalling 1048575.75 bytes, and the call succeeds. -/
theorem c2_ceil_rounding_cex :
    ((ceilSize 3 : Int) + ceilSize 3 + ceilSize 1398095 >
        v2cex.MAX_IMAGE_SIZE_MB * 1024 * 1024) ∧
    [imgItem "aaa", imgItem "aaa", imgItem bigData].filterMap itemB64Len =
      [3, 3, 1398095] ∧
    ∃ p, assembledPayload v2cex "claude-3-haiku-20240307" msgs2cex b0 = .ok p := by
  have hlen : bigData.length = 1398095 := by
    show (List.replicate 1398095 'a').length = 1398095
    exact List.length_replicate 1398095 'a'
  have h3 : ("aaa" : String).length = 3 := rfl
  refine ⟨by decide, ?_, ?_⟩
  · simp [List.filterMap_cons, itemB64Len, imgItem, processImage_dataUri, hlen, h3]
  · have hq : sizeQM msgs2cex = 4194303 := by
      simp [sizeQM, msgs2cex, msgItems, sizeQ_imgItem, hlen, h3]
    refine ⟨_, assembled_ok v2cex "claude-3-haiku-20240307" b0 msgs2cex none msgs2cex rfl
      ?_ ?_ ?_⟩
    · simp [msgs2cex, wfMsg, msgItems, List.all_cons, wfItem, imgItem,
        processImage_dataUri, isOkB]
    · decide
    · rw [hq]; decide

/-- C4 (amended): for well-formed turns whose exact cumulative decoded
size stays within the ceiling, a call with more image items than the
configured `MAX_IMAGES` fails with a `ValueError` naming the configured
maximum before any request is produced, and a call with at most
`MAX_IMAGES` image items succeeds with all of them converted into image
blocks of the outbound request. -/
theorem c4_image_count_limit (v : Valves) (mid : String) (body : Body)
    (msgs : List Message) (sys : Option ContentVal) (rest : List Message)
    (hpop : pop_system_message msgs = .ok (sys, rest))
    (hwf : rest.all wfMsg = true)
    (hmax : 0 ≤ v.MAX_IMAGES)
    (hsz : (sizeQM rest : Int) ≤ limit4 v) :
    ((imageCountM rest : Int) > v.MAX_IMAGES →
      assembledPayload v mid msgs body =
        .error (.valueError (maxImagesMsg v.MAX_IMAGES)) ∧
      ∀ (um : String) (up : Upstream),
        pipe v um mid msgs body up =
          .errText ("Error: " ++ maxImagesMsg v.MAX_IMAGES)) ∧
    ((imageCountM rest : Int) ≤ v.MAX_IMAGES →
      ∃ p, assembledPayload v mid msgs body = .ok p ∧
        payloadImageCount p = imageCountM rest) := by
  constructor
  · intro hover
    have he := assembled_count_err v mid body msgs sys rest hpop hwf hmax hsz hover
    exact ⟨he, fun um up => pipe_of_assembled_err he⟩
  · intro hle
    refine ⟨_, assembled_ok v mid body msgs sys rest hpop hwf hle hsz, ?_⟩
    have hm : (attachSystem (buildPayload v mid (rest.map expectedPMsg) (cleanBody body)) sys).messages =
        rest.map expectedPMsg := by
      rw [attachSystem_messages]
      rfl
    simp only [payloadImageCount, hm]
    exact expected_payloadImageCount rest hwf

/-- Witness for C4 (amended) at a concrete input: with `MAX_IMAGES = 0`,
one image fails with the `ValueError` naming that maximum. -/
theorem c4_image_count_limit_witness :
    assembledPayload vMax0 "m" msgsOneImg b0 =
      .error (.valueError (maxImagesMsg vMax0.MAX_IMAGES)) :=
  ((c4_image_count_limit vMax0 "m" b0 msgsOneImg none msgsOneImg rfl (by decide)
    (by decide) (by decide)).1 (by decide)).1

/-- Counterexample to C4 as stated: with `MAX_IMAGES = 2`, a 0MB size
ceiling and three small images, the call has more images than the
configured maximum, so the claim demands a failure naming that maximum —
yet the size check fires first and the call fails with the size
`ValueError` instead. -/
theorem c4_count_error_preempted_cex :
    ((3 : Int) > v4cex.MAX_IMAGES) ∧
    imageCountM msgs4cex = 3 ∧
    assembledPayload v4cex "m" msgs4cex b0 =
      .error (.valueError (sizeLimitMsg v4cex.MAX_IMAGE_SIZE_MB)) ∧
    sizeLimitMsg v4cex.MAX_IMAGE_SIZE_MB ≠ maxImagesMsg v4cex.MAX_IMAGES := by
  exact ⟨by decide, by decide, rfl, by decide⟩

/-- C1: no exception escapes a `pipe` call.  Every call returns either a
completion value, a returned error-description string, or a chunk
sequence in which an error-description chunk can appear only as the final
chunk (after which the sequence ends); in particular a validation failure
is converted to a returned error string, and on each path a transport
failure, a non-success upstream status, or a JSON-parse failure is
converted to a returned error string (non-streaming) or to the final
emitted error chunk (streaming). -/
theorem c1_failures_contained (v : Valves) (um mid : String) (msgs : List Message)
    (body : Body) (up : Upstream) :
    ((∃ s, pipe v um mid msgs body up = .errText s) ∨
      (∃ j, pipe v um mid msgs body up = .ok j) ∨
      (∃ cs, pipe v um mid msgs body up = .stream cs ∧ errOnlyFinal cs = true)) ∧
    (∀ e, assembledPayload v mid msgs body = .error e →
      pipe v um mid msgs body up = .errText ("Error: " ++ pyErrStr e)) ∧
    (∀ p, assembledPayload v mid msgs body = .ok p → p.stream = false →
      ((∀ t, up.nonstream p = .error t →
          pipe v um mid msgs body up =
            .errText ("Error getting completion: " ++ transportMsg t)) ∧
        (∀ r, up.nonstream p = .ok r → r.status ≠ 200 →
          pipe v um mid msgs body up =
            .errText ("Error getting completion: " ++ apiErrorMsg r.status r.text)) ∧
        (∀ r, up.nonstream p = .ok r → r.status = 200 → r.body = none →
          pipe v um mid msgs body up =
            .errText ("Error getting completion: " ++ jsonParseFailMsg)))) ∧
    (∀ p, assembledPayload v mid msgs body = .ok p → p.stream = true →
      ((∀ t, up.stream p = .error t →
          pipe v um mid msgs body up =
            .stream [.err (streamErrMsg (transportMsg t))]) ∧
        (∀ r, up.stream p = .ok r → r.status ≠ 200 →
          pipe v um mid msgs body up =
            .stream [.err (streamErrMsg (apiErrorMsg r.status r.text))]))) := by
  refine ⟨?_, ?_, ?_, ?_⟩
  · rcases hap : assembledPayload v mid msgs body with e | p
    · exact Or.inl ⟨_, pipe_of_assembled_err hap⟩
    · by_cases hst : p.stream = true
      · exact Or.inr (Or.inr ⟨_, pipe_of_stream hap hst, errOnlyFinal_stream_response up p⟩)
      · have hst2 : p.stream = false := by
          revert hst; cases p.stream <;> simp
        rcases hgc : get_completion up p with j | s
        · exact Or.inr (Or.inl ⟨j, pipe_of_completion_val hap hst2 hgc⟩)
        · exact Or.inl ⟨s, pipe_of_completion_err hap hst2 hgc⟩
  · intro e he
    exact pipe_of_assembled_err he
  · intro p hp hst
    refine ⟨?_, ?_, ?_⟩
    · intro t ht
      refine pipe_of_completion_err hp hst ?_
      rw [get_completion, ht]
    · intro r hr hne
      refine pipe_of_completion_err hp hst ?_
      rw [get_completion, hr]
      dsimp only
      rw [if_pos hne]
    · intro r hr h200 hbody
      refine pipe_of_completion_err hp hst ?_
      rw [get_completion, hr]
      dsimp only
      rw [if_neg (by rw [h200]; simp), hbody]
  · intro p hp hst
    refine ⟨?_, ?_⟩
    · intro t ht
      rw [pipe_of_stream hp hst, stream_response, ht]
    · intro r hr hne
      rw [pipe_of_stream hp hst, stream_response, hr]
      dsimp only
      rw [if_pos hne]

/-- Witness for C1 at a concrete input: a transport failure on the
non-streaming path is returned as an error-description string. -/
theorem c1_failures_contained_witness :
    pipe vDefault "u" "m" [] b0 upFail =
      .errText ("Error getting completion: " ++ transportMsg (.fail "boom")) :=
  ((c1_failures_contained vDefault "u" "m" [] b0 upFail).2.2.1 payload0 rfl rfl).1
    (.fail "boom") rfl

end Anthropic





